import Mathlib

/-!
Verification of the storey typed-storage layer.

Byte strings are modelled as `List Nat` (each element a byte value).
Fallible Rust functions returning `Result` are modelled with `Except`;
Rust code paths that can panic (out-of-bounds slice indexing, `.unwrap()`
on `Err`) are modelled with the `PanicOr` outcome type, so that a panic
is an observable result rather than an unprovable side condition.
The pluggable codec and key capabilities (external collaborators) are
parameters of the definitions.
-/

namespace Storey

/-- Outcome of running a Rust code path that may panic: either a normal
return value or a panic (index out of bounds, `.unwrap()` on `Err`). -/
inductive PanicOr (α : Type) where
  | panicked : PanicOr α
  | ret : α → PanicOr α
  deriving Repr, DecidableEq

/-- Modelled from the spec: the external byte-range store capability
(spec section 6) is not part of this repository; a store state is a map
from byte keys to optionally present byte values. -/
def Store : Type := List Nat → Option (List Nat)

/-- Modelled from the spec: the store capability's `set` writes a value
at an exact byte key (spec section 6). -/
def storeSet (store : Store) (key val : List Nat) : Store :=
  fun q => if q = key then some val else store q

/-- Modelled from the spec: the store capability's `remove` deletes the
value at an exact byte key (spec section 6). -/
def storeRemove (store : Store) (key : List Nat) : Store :=
  fun q => if q = key then none else store q

/-- Modelled from the spec: a store with no key set. -/
def emptyStore : Store := fun _ => none

/-- Modelled from the spec: `StorageBranch` (the namespace branch) is not
under src/; per spec section 4.1 its `get(suffix)` is a direct
pass-through to the underlying store at `prefix ++ suffix`. -/
def branchGet (store : Store) (pfx suffix : List Nat) : Option (List Nat) :=
  store (pfx ++ suffix)

/-- Modelled from the spec: `StorageBranch.set(suffix, bytes)` forwards to
the underlying store at `prefix ++ suffix` (spec section 4.1). -/
def branchSet (store : Store) (pfx suffix val : List Nat) : Store :=
  storeSet store (pfx ++ suffix) val

/-- Modelled from the spec: `StorageBranch.remove(suffix)` forwards to the
underlying store at `prefix ++ suffix` (spec section 4.1). -/
def branchRemove (store : Store) (pfx suffix : List Nat) : Store :=
  storeRemove store (pfx ++ suffix)

/-- The `u8` cast performed by `len as u8` in `MapAccess::get`
(src/src/containers/map.rs): truncation modulo 256. -/
def u8cast (n : Nat) : Nat := n % 256

/-- The key-decode error type of the terminal container
(`ItemKeyDecodeError`, packages/storey/src/containers/item.rs). -/
inductive ItemKeyDecodeError where
  | mk : ItemKeyDecodeError
  deriving Repr, DecidableEq

/-- `Item::decode_key` (packages/storey/src/containers/item.rs): succeeds
exactly on the empty key suffix, otherwise returns `ItemKeyDecodeError`. -/
def itemDecodeKey (key : List Nat) : Except ItemKeyDecodeError Unit :=
  if key.isEmpty then .ok () else .error .mk

/-- `Map::decode_key` (src/src/containers/map.rs), parameterized by the
segment-key codec `fb` (`K::from_bytes`) and the inner container's key
decoder `idk` (`V::decode_key`). The Rust body is

  let len = key[0] as usize;
  let map_key = K::from_bytes(&key[1..len + 1])?;
  let rest = V::decode_key(&key[len + 1..]).unwrap();
  Ok((map_key, rest))

`key[0]` panics on an empty slice; the slice `&key[1..len + 1]` panics
when `len + 1 > key.len()`; and `.unwrap()` panics when the inner decoder
fails. Each of those panic paths is an explicit `.panicked` outcome here. -/
def mapDecodeKey {K VK ε : Type} (fb : List Nat → Except Unit K)
    (idk : List Nat → Except ε VK) : List Nat → PanicOr (Except Unit (K × VK))
  | [] => .panicked
  | len :: restAll =>
    if len ≤ restAll.length then
      match fb (restAll.take len) with
      | .error e => .ret (.error e)
      | .ok mapKey =>
        match idk (restAll.drop len) with
        | .error _ => .panicked
        | .ok rest => .ret (.ok (mapKey, rest))
    else .panicked

/-- The sub-branch key derived by `MapAccess::get`
(src/src/containers/map.rs): it pushes `len as u8` and then appends the
full segment bytes. The function is total: no length check is made and no
error can be returned. -/
def mapAccessGetKey (keyBytes : List Nat) : List Nat :=
  u8cast keyBytes.length :: keyBytes

/-- `KVDecodeError` (src/src/containers/map.rs): tags an iteration decode
failure as a key failure or a value failure. -/
inductive KVDecodeError (K V : Type) where
  | Key : K → KVDecodeError K V
  | Value : V → KVDecodeError K V
  deriving Repr, DecidableEq

/-- One step of `MapIter::next` (src/src/containers/map.rs) applied to one
raw `(key, value)` pair: both decoders run, a key failure is tagged
`KVDecodeError::Key`, then a value failure `KVDecodeError::Value`. A panic
in `Map::decode_key` propagates as a panic of the iterator. -/
def mapIterNext {K VK εv V : Type} (fb : List Nat → Except Unit K)
    (idk : List Nat → Except ItemKeyDecodeError VK)
    (dv : List Nat → Except εv V) (p : List Nat × List Nat) :
    PanicOr (Except (KVDecodeError Unit εv) ((K × VK) × V)) :=
  match mapDecodeKey fb idk p.1 with
  | .panicked => .panicked
  | .ret kres =>
    match kres, dv p.2 with
    | .error e, _ => .ret (.error (.Key e))
    | .ok _, .error e => .ret (.error (.Value e))
    | .ok k, .ok v => .ret (.ok (k, v))

/-- Consuming the whole `MapIter` over the raw pair sequence produced by
the backing store: returns the results yielded before any panic, and
whether a panic cut the iteration short (`true` = the consumer died at
that entry and no later entry was yielded). -/
def mapIterRun {K VK εv V : Type} (fb : List Nat → Except Unit K)
    (idk : List Nat → Except ItemKeyDecodeError VK)
    (dv : List Nat → Except εv V) :
    List (List Nat × List Nat) →
      List (Except (KVDecodeError Unit εv) ((K × VK) × V)) × Bool
  | [] => ([], false)
  | p :: ps =>
    match mapIterNext fb idk dv p with
    | .panicked => ([], true)
    | .ret r =>
      let rest := mapIterRun fb idk dv ps
      (r :: rest.1, rest.2)

/-- The prototype `Item::get` (src/src/containers/item.rs):

  let data = storage.get(key)?;
  let item = T::decode(&data).ok()?;
  Some(item)

A decode failure is converted by `.ok()?` into `None`. -/
def protoItemGet {T ε : Type} (dec : List Nat → Except ε T)
    (store : Store) (key : List Nat) : Option T :=
  match store key with
  | none => none
  | some data =>
    match dec data with
    | .ok item => some item
    | .error _ => none

/-- `ItemAccess::get` (packages/storey/src/containers/item.rs) for an
`Item` at single-byte key `k`: reads the branch (prefix `[k]`) at the
empty suffix and transposes the decode:
absent gives `Ok(None)`, a decode failure surfaces the codec's error. -/
def itemAccessGet {T ε : Type} (dec : List Nat → Except ε T)
    (store : Store) (k : Nat) : Except ε (Option T) :=
  match branchGet store [k] [] with
  | none => .ok none
  | some bytes =>
    match dec bytes with
    | .ok v => .ok (some v)
    | .error e => .error e

/-- `ItemAccess::set` (packages/storey/src/containers/item.rs): encodes
the value and writes the bytes through the branch at the empty suffix.
The store is threaded explicitly: the second component is the store state
after the call, unchanged when encoding fails. -/
def itemAccessSet {T εe : Type} (enc : T → Except εe (List Nat))
    (store : Store) (k : Nat) (v : T) : Except εe Unit × Store :=
  match enc v with
  | .error e => (.error e, store)
  | .ok bytes => (.ok (), branchSet store [k] [] bytes)

/-- `ItemAccess::remove` (packages/storey/src/containers/item.rs): deletes
the branch's slot. Infallible: it returns no error. -/
def itemAccessRemove (store : Store) (k : Nat) : Store :=
  branchRemove store [k] []

/-- `UpdateError` (packages/storey/src/containers/item.rs): a decode
failure in the read phase or an encode failure in the write phase of
`update`. -/
inductive UpdateError (εd εe : Type) where
  | Decode : εd → UpdateError εd εe
  | Encode : εe → UpdateError εd εe
  deriving Repr, DecidableEq

/-- `ItemAccess::update` (packages/storey/src/containers/item.rs):

  let new_value = f(self.get().map_err(UpdateError::Decode)?);
  self.set(&new_value).map_err(UpdateError::Encode)

with the store state threaded explicitly as in `itemAccessSet`. -/
def itemAccessUpdate {T εd εe : Type} (dec : List Nat → Except εd T)
    (enc : T → Except εe (List Nat)) (store : Store) (k : Nat)
    (f : Option T → T) : Except (UpdateError εd εe) Unit × Store :=
  match itemAccessGet dec store k with
  | .error e => (.error (.Decode e), store)
  | .ok cur =>
    match itemAccessSet enc store k (f cur) with
    | (.error e, s) => (.error (.Encode e), s)
    | (.ok _, s) => (.ok (), s)

/-- C1: the recursive container's key decoder does not meet the
requirement of returning a typed `KeyDecodeError` on malformed input: on
an empty buffer it performs an out-of-bounds index (`key[0]`) and panics,
and on a length byte claiming more bytes than remain (`[5, 1]`) the slice
`&key[1..len + 1]` panics, for every segment-key codec and inner decoder. -/
theorem mapDecodeKey_panics_on_malformed {K VK ε : Type}
    (fb : List Nat → Except Unit K) (idk : List Nat → Except ε VK) :
    mapDecodeKey fb idk [] = .panicked ∧
    mapDecodeKey fb idk [5, 1] = .panicked := by
  refine ⟨rfl, ?_⟩
  simp [mapDecodeKey]

/-- C2: `Map::decode_key` is a left-inverse of the key encoding: for every
segment `s` of at most 255 bytes whose codec decodes its own bytes back,
and every remainder accepted by the inner container's decoder, decoding
the composed stored key `[len(s)] ++ s ++ rest` (the sub-branch key
derived by `MapAccess::get`, followed by the inner suffix) yields
`Ok((s, k))`. -/
theorem mapDecodeKey_left_inverse {K VK ε : Type}
    (fb : List Nat → Except Unit K) (idk : List Nat → Except ε VK)
    (s rest : List Nat) (sval : K) (k : VK)
    (hlen : s.length ≤ 255) (hfb : fb s = .ok sval) (hidk : idk rest = .ok k) :
    mapDecodeKey fb idk (mapAccessGetKey s ++ rest) = .ret (.ok (sval, k)) := by
  have hmod : s.length % 256 = s.length := Nat.mod_eq_of_lt (Nat.lt_succ_of_le hlen)
  simp [mapAccessGetKey, u8cast, mapDecodeKey, hmod, List.take_left, List.drop_left,
    hfb, hidk]

/-- Witness for C2 at a concrete input: segment `[65]` with the identity
byte codec and a terminal inner container. -/
theorem mapDecodeKey_left_inverse_witness :
    ([65] : List Nat).length ≤ 255 ∧
    (fun b => (Except.ok b : Except Unit (List Nat))) [65] = .ok [65] ∧
    itemDecodeKey [] = .ok () ∧
    mapDecodeKey (fun b => (Except.ok b : Except Unit (List Nat))) itemDecodeKey
      (mapAccessGetKey [65] ++ []) = .ret (.ok ([65], ())) := by
  refine ⟨by decide, rfl, rfl, ?_⟩
  exact mapDecodeKey_left_inverse _ _ [65] [] [65] () (by decide) rfl rfl

/-- C3 counterexample: the prototype `Item::get`
(src/src/containers/item.rs) silently converts a decode failure into an
absent result. At a store holding bytes `[7]` under key `[0]`, with a
codec whose decode fails on those bytes, `get` returns `None` instead of
surfacing the codec's error, refuting the claim as stated for every
terminal container. -/
theorem protoItemGet_swallows_decode_error :
    (storeSet emptyStore [0] [7]) [0] = some [7] ∧
    (fun _ => (Except.error () : Except Unit Unit)) ([7] : List Nat) = .error () ∧
    protoItemGet (fun _ => (Except.error () : Except Unit Unit))
      (storeSet emptyStore [0] [7]) [0] = none := by
  refine ⟨?_, rfl, ?_⟩ <;> simp [protoItemGet, storeSet, emptyStore]

/-- C3 (amended): for the storey package's `ItemAccess::get` the claim
holds: an absent key gives `Ok(None)`, a present key whose bytes decode
gives `Ok(Some(v))`, and a decode failure surfaces the codec's error; the
legacy prototype `Item::get` instead returns an `Option` and maps a
decode failure to `None`. -/
theorem itemAccessGet_trichotomy {T ε : Type} (dec : List Nat → Except ε T)
    (store : Store) (k : Nat) :
    (store [k] = none → itemAccessGet dec store k = .ok none) ∧
    (∀ b v, store [k] = some b → dec b = .ok v →
      itemAccessGet dec store k = .ok (some v)) ∧
    (∀ b e, store [k] = some b → dec b = .error e →
      itemAccessGet dec store k = .error e) := by
  refine ⟨?_, ?_, ?_⟩ <;> intros <;> simp_all [itemAccessGet, branchGet]

/-- Witness for C3's amended theorem at concrete inputs: an empty store,
and a store holding `[9]` under key `[1]` read with a succeeding and with
a failing codec. -/
theorem itemAccessGet_trichotomy_witness :
    emptyStore [0] = none ∧
    itemAccessGet (fun _ => (Except.ok 42 : Except Unit Nat)) emptyStore 0 = .ok none ∧
    (storeSet emptyStore [1] [9]) [1] = some [9] ∧
    itemAccessGet (fun _ => (Except.ok 42 : Except Unit Nat))
      (storeSet emptyStore [1] [9]) 1 = .ok (some 42) ∧
    itemAccessGet (fun _ => (Except.error () : Except Unit Nat))
      (storeSet emptyStore [1] [9]) 1 = .error () := by
  refine ⟨rfl, ?_, ?_, ?_, ?_⟩
  · exact (itemAccessGet_trichotomy _ emptyStore 0).1 rfl
  · simp [storeSet, emptyStore]
  · exact (itemAccessGet_trichotomy _ (storeSet emptyStore [1] [9]) 1).2.1 [9] 42
      (by simp [storeSet, emptyStore]) rfl
  · exact (itemAccessGet_trichotomy _ (storeSet emptyStore [1] [9]) 1).2.2 [9] ()
      (by simp [storeSet, emptyStore]) rfl

/-- C4: evaluation of the map iterator at a corrupted raw key. With the
identity segment codec over a terminal inner container, the raw pair
sequence `[([1,65],[7]), ([],[8]), ([1,66],[9])]` makes the iterator
panic at the second entry (the empty key trips the unchecked `key[0]`
index in `Map::decode_key`), so only one result is yielded and the valid
third sibling is lost — the claim's per-pair error isolation fails. The
second conjunct shows isolation does hold for a corrupted value: a
value-decode failure is tagged `KVDecodeError::Value` in position and the
siblings before and after it are still yielded. -/
theorem mapIter_panics_on_corrupt_key :
    mapIterRun (fun b => (Except.ok b : Except Unit (List Nat))) itemDecodeKey
      (fun b => (Except.ok b : Except Unit (List Nat)))
      [([1, 65], [7]), ([], [8]), ([1, 66], [9])] =
      ([.ok (([65], ()), [7])], true) ∧
    mapIterRun (fun b => (Except.ok b : Except Unit (List Nat))) itemDecodeKey
      (fun b => if b = [8] then (Except.error () : Except Unit (List Nat))
        else .ok b)
      [([1, 65], [7]), ([1, 66], [8]), ([1, 67], [9])] =
      ([.ok (([65], ()), [7]), .error (.Value ()), .ok (([67], ()), [9])],
        false) := by
  constructor <;> rfl

/-- C5: for a codec that round-trips the value, `set` through an Item
accessor succeeds and writes the encoding at the item's key, a subsequent
`get` returns `Ok(Some(v))`, and `get` on any store where the item's key
was never set returns `Ok(None)`. -/
theorem item_set_get {T εe εd : Type} (enc : T → Except εe (List Nat))
    (dec : List Nat → Except εd T) (store : Store) (k : Nat) (v : T)
    (b : List Nat) (henc : enc v = .ok b) (hdec : dec b = .ok v) :
    itemAccessSet enc store k v = (.ok (), branchSet store [k] [] b) ∧
    itemAccessGet dec (itemAccessSet enc store k v).2 k = .ok (some v) ∧
    (∀ s0 : Store, s0 [k] = none → itemAccessGet dec s0 k = .ok none) := by
  refine ⟨?_, ?_, ?_⟩
  · simp [itemAccessSet, henc]
  · simp [itemAccessSet, henc, itemAccessGet, branchGet, branchSet, storeSet, hdec]
  · intro s0 h0
    simp [itemAccessGet, branchGet, h0]

/-- Witness for C5 at a concrete input: value 42 encoded as `[9]` over
the empty store. -/
theorem item_set_get_witness :
    (fun _ : Nat => (Except.ok [9] : Except Unit (List Nat))) 42 = .ok [9] ∧
    (fun _ : List Nat => (Except.ok 42 : Except Unit Nat)) [9] = .ok 42 ∧
    itemAccessGet (fun _ => (Except.ok 42 : Except Unit Nat))
      (itemAccessSet (fun _ => (Except.ok [9] : Except Unit (List Nat)))
        emptyStore 0 42).2 0 = .ok (some 42) ∧
    itemAccessGet (fun _ => (Except.ok 42 : Except Unit Nat)) emptyStore 0 =
      .ok none := by
  have t := item_set_get (fun _ => (Except.ok [9] : Except Unit (List Nat)))
    (fun _ => (Except.ok 42 : Except Unit Nat)) emptyStore 0 42 [9] rfl rfl
  exact ⟨rfl, rfl, t.2.1, t.2.2 emptyStore rfl⟩

/-- C6: writing through the Item at key `k1` is invisible through the
sibling Item at a distinct key `k2`: its `get` result is unchanged, an
unset sibling still reads `Ok(None)`, and no store key other than the
writer's own key `[k1]` is modified. -/
theorem item_sibling_frame {T εe εd : Type} (enc : T → Except εe (List Nat))
    (dec : List Nat → Except εd T) (store : Store) (k1 k2 : Nat) (v : T)
    (b : List Nat) (hne : k1 ≠ k2) (henc : enc v = .ok b) :
    itemAccessGet dec (itemAccessSet enc store k1 v).2 k2 =
      itemAccessGet dec store k2 ∧
    (store [k2] = none →
      itemAccessGet dec (itemAccessSet enc store k1 v).2 k2 = .ok none) ∧
    (∀ q : List Nat, q ≠ [k1] → (itemAccessSet enc store k1 v).2 q = store q) := by
  have hkey : k2 ≠ k1 := Ne.symm hne
  refine ⟨?_, ?_, ?_⟩
  · simp [itemAccessSet, henc, itemAccessGet, branchGet, branchSet, storeSet, hkey]
  · intro h0
    simp [itemAccessSet, henc, itemAccessGet, branchGet, branchSet, storeSet, hkey, h0]
  · intro q hq
    simp [itemAccessSet, henc, branchSet, storeSet, hq]

/-- Witness for C6 at concrete inputs: keys 0 and 1 over the empty store,
checking the sibling's read and an unrelated store key `[5]`. -/
theorem item_sibling_frame_witness :
    (0 : Nat) ≠ 1 ∧
    itemAccessGet (fun _ => (Except.ok 42 : Except Unit Nat))
      (itemAccessSet (fun _ => (Except.ok [9] : Except Unit (List Nat)))
        emptyStore 0 42).2 1 = .ok none ∧
    (itemAccessSet (fun _ => (Except.ok [9] : Except Unit (List Nat)))
      emptyStore 0 42).2 [5] = emptyStore [5] := by
  have t := item_sibling_frame (fun _ => (Except.ok [9] : Except Unit (List Nat)))
    (fun _ => (Except.ok 42 : Except Unit Nat)) emptyStore 0 1 42 [9]
    (by decide) rfl
  exact ⟨by decide, t.2.1 rfl, t.2.2 [5] (by decide)⟩

/-- C9: the terminal container's key decoder accepts exactly the empty
byte suffix: `Ok(())` iff the input is empty, and every non-empty suffix
yields the typed `ItemKeyDecodeError`. -/
theorem itemDecodeKey_empty_iff (b : List Nat) :
    (itemDecodeKey b = .ok () ↔ b = []) ∧
    (b ≠ [] → itemDecodeKey b = .error .mk) := by
  cases b with
  | nil => exact ⟨⟨fun _ => rfl, fun _ => rfl⟩, fun h => absurd rfl h⟩
  | cons x xs =>
    refine ⟨⟨?_, ?_⟩, fun _ => rfl⟩
    · intro h
      simp [itemDecodeKey] at h
    · intro h
      exact absurd h (by simp)

/-- Witness for C9 at concrete inputs: the empty suffix and `[0]`. -/
theorem itemDecodeKey_empty_iff_witness :
    itemDecodeKey [] = .ok () ∧ itemDecodeKey [0] = .error .mk :=
  ⟨(itemDecodeKey_empty_iff []).1.mpr rfl, (itemDecodeKey_empty_iff [0]).2 (by decide)⟩

/-- C7: `update(f)` reads the current value, applies `f` and writes the
result; a decode failure during the read phase yields the `Decode`
variant of `UpdateError` and an encode failure during the write phase the
`Encode` variant, and in either error case the store state is unchanged
(no write is performed). -/
theorem item_update_spec {T εd εe : Type} (dec : List Nat → Except εd T)
    (enc : T → Except εe (List Nat)) (store : Store) (k : Nat)
    (f : Option T → T) :
    (∀ b e, branchGet store [k] [] = some b → dec b = .error e →
      itemAccessUpdate dec enc store k f = (.error (.Decode e), store)) ∧
    (∀ cur e, itemAccessGet dec store k = .ok cur → enc (f cur) = .error e →
      itemAccessUpdate dec enc store k f = (.error (.Encode e), store)) ∧
    (∀ cur bts, itemAccessGet dec store k = .ok cur → enc (f cur) = .ok bts →
      itemAccessUpdate dec enc store k f = (.ok (), branchSet store [k] [] bts)) := by
  refine ⟨?_, ?_, ?_⟩
  · intro b e hb hd
    simp [itemAccessUpdate, itemAccessGet, hb, hd]
  · intro cur e hg he
    simp [itemAccessUpdate, hg, itemAccessSet, he]
  · intro cur bts hg he
    simp [itemAccessUpdate, hg, itemAccessSet, he]

/-- Witness for C7 at concrete inputs: a store holding `[9]` under key
`[0]`, exercised with a failing decoder, a failing encoder, and the
all-success path. -/
theorem item_update_spec_witness :
    itemAccessUpdate (fun _ => (Except.error () : Except Unit Nat))
      (fun _ => (Except.ok [1] : Except Unit (List Nat)))
      (storeSet emptyStore [0] [9]) 0 (fun _ => 1) =
      (.error (.Decode ()), storeSet emptyStore [0] [9]) ∧
    itemAccessUpdate (fun _ => (Except.ok 5 : Except Unit Nat))
      (fun _ => (Except.error () : Except Unit (List Nat)))
      (storeSet emptyStore [0] [9]) 0 (fun _ => 1) =
      (.error (.Encode ()), storeSet emptyStore [0] [9]) ∧
    itemAccessUpdate (fun _ => (Except.ok 5 : Except Unit Nat))
      (fun _ => (Except.ok [1] : Except Unit (List Nat)))
      (storeSet emptyStore [0] [9]) 0 (fun _ => 1) =
      (.ok (), branchSet (storeSet emptyStore [0] [9]) [0] [] [1]) := by
  refine ⟨?_, ?_, ?_⟩
  · exact (item_update_spec _ _ _ 0 _).1 [9] ()
      (by simp [branchGet, storeSet, emptyStore]) rfl
  · exact (item_update_spec _ _ _ 0 _).2.1 (some 5) ()
      (by simp [itemAccessGet, branchGet, storeSet, emptyStore]) rfl
  · exact (item_update_spec _ _ _ 0 _).2.2 (some 5) [1]
      (by simp [itemAccessGet, branchGet, storeSet, emptyStore]) rfl

/-- C8: after `remove()` a subsequent `get()` returns `Ok(None)`;
`remove` is idempotent (removing an already-removed key leaves the same
state) and removing a never-set key succeeds and leaves the store
unchanged; the operation is infallible by type. -/
theorem item_remove_spec {T ε : Type} (dec : List Nat → Except ε T)
    (store : Store) (k : Nat) :
    itemAccessGet dec (itemAccessRemove store k) k = .ok none ∧
    itemAccessRemove (itemAccessRemove store k) k = itemAccessRemove store k ∧
    (store [k] = none → itemAccessRemove store k = store) := by
  refine ⟨?_, ?_, ?_⟩
  · simp [itemAccessGet, branchGet, itemAccessRemove, branchRemove, storeRemove]
  · funext q
    by_cases hq : q = [k]
    · simp [itemAccessRemove, branchRemove, storeRemove, hq]
    · simp [itemAccessRemove, branchRemove, storeRemove, hq]
  · intro h0
    funext q
    by_cases hq : q = [k]
    · subst hq
      simp [itemAccessRemove, branchRemove, storeRemove, h0]
    · simp [itemAccessRemove, branchRemove, storeRemove, hq]

/-- Witness for C8 at concrete inputs: removing key 0 from a store that
holds it, and from the empty store that never held it. -/
theorem item_remove_spec_witness :
    itemAccessGet (fun _ => (Except.ok 42 : Except Unit Nat))
      (itemAccessRemove (storeSet emptyStore [0] [9]) 0) 0 = .ok none ∧
    itemAccessRemove (itemAccessRemove emptyStore 0) 0 =
      itemAccessRemove emptyStore 0 ∧
    itemAccessRemove emptyStore 0 = emptyStore := by
  refine ⟨(item_remove_spec _ _ 0).1, ?_, ?_⟩
  · exact (item_remove_spec (fun _ => (Except.ok 42 : Except Unit Nat))
      emptyStore 0).2.1
  · exact (item_remove_spec (fun _ => (Except.ok 42 : Except Unit Nat))
      emptyStore 0).2.2 rfl

/-- C10: for a segment longer than 255 bytes, `MapAccess::get` silently
derives the sub-branch key `(len mod 256) :: segment` — the (total,
error-free) function truncates the length prefix modulo 256 while still
appending the full segment bytes, so the first byte of the derived key no
longer equals the segment's length, violating the documented
length-prefix layout. -/
theorem mapAccessGet_overlong_segment (s : List Nat) (h : 255 < s.length) :
    mapAccessGetKey s = s.length % 256 :: s ∧
    s.length % 256 ≠ s.length ∧
    (mapAccessGetKey s).tail = s := by
  refine ⟨rfl, ?_, rfl⟩
  have h1 : s.length % 256 < 256 := Nat.mod_lt _ (by norm_num)
  omega

/-- Witness for C10 at a concrete input: a 300-byte segment. -/
theorem mapAccessGet_overlong_segment_witness :
    255 < (List.replicate 300 (7 : Nat)).length ∧
    mapAccessGetKey (List.replicate 300 (7 : Nat)) =
      (List.replicate 300 (7 : Nat)).length % 256 :: List.replicate 300 (7 : Nat) ∧
    (List.replicate 300 (7 : Nat)).length % 256 ≠
      (List.replicate 300 (7 : Nat)).length := by
  have h : 255 < (List.replicate 300 (7 : Nat)).length := by
    simp only [List.length_replicate]
    omega
  have t := mapAccessGet_overlong_segment (List.replicate 300 (7 : Nat)) h
  exact ⟨h, t.1, t.2.1⟩

end Storey
